import Mathlib

/-
Verification of the mock request-interception and test-override layer of the
bizops-management repository.

The code present in the repository is the vitest wiring
(src/src/tests/setup.ts: beforeAll runs mswServer.listen, afterEach runs
mswServer.resetHandlers, afterAll runs mswServer.close) and the vitest
configuration (src/vite.config.ts: the test env loads the environment
variables and points setupFiles at setup.ts).  The interception server, the
base handlers over the fixtures, and the override utilities are described by
the specification; they are modelled here from its words, as noted on each
definition.
-/

namespace BizOps

/-- HTTP method of a request or of a handler registration. -/
inductive Method where
  | get
  | post
  | put
  | delete
deriving DecidableEq

/-- Modelled from the spec: a synthetic response produced by a handler —
a status code, a body (none stands for the empty body), and the simulated
delay in milliseconds before the response resolves. -/
structure MockResponse where
  status : Nat
  body : Option String
  delayMs : Nat
deriving DecidableEq

/-- Modelled from the spec: a handler registration, mapping an
(HTTP method, URL pattern) pair to a response. -/
structure Handler where
  method : Method
  pattern : String
  response : MockResponse
deriving DecidableEq

/-- A handler registration matches a request given by a method and a URL
when both the method and the pattern agree. -/
def matchesH (h : Handler) (m : Method) (url : String) : Bool :=
  decide (h.method = m) && decide (h.pattern = url)

/-- Modelled from the spec: the process-wide state of the interception
server — whether interception is active, the base handler set, and the
override registrations layered on top of it (newest first). -/
structure ServerState where
  active : Bool
  baseHandlers : List Handler
  overrides : List Handler
deriving DecidableEq

/-- Modelled from the spec: listen() activates interception for the
process. -/
def listen (s : ServerState) : ServerState := { s with active := true }

/-- Modelled from the spec: close() deactivates interception. -/
def close (s : ServerState) : ServerState := { s with active := false }

/-- Modelled from the spec: resetHandlers() discards any override
registrations, restoring the base handler set. -/
def resetHandlers (s : ServerState) : ServerState := { s with overrides := [] }

/-- Modelled from the spec: installing an override registration pushes it in
front of the existing ones, so that resolution reaches the newest
registration first and the last registration for a given
(method, pattern) wins. -/
def use (h : Handler) (s : ServerState) : ServerState :=
  { s with overrides := h :: s.overrides }

/-- Resolution: the active handler for a request is the first registration,
overrides before base handlers and newest override first, that matches the
request. -/
def findHandler (s : ServerState) (m : Method) (url : String) : Option Handler :=
  (s.overrides ++ s.baseHandlers).find? (fun h => matchesH h m url)

/-- Outcome of issuing a request while the interception server is in a given
state: the request is answered by a synthetic response, or it leaves the
mock layer towards the real network stack (pass through or failure, per the
underlying mechanism). -/
inductive Outcome where
  | mocked (resp : MockResponse)
  | network
deriving DecidableEq

/-- Modelled from the spec: an intercepted request is answered by the
matching handler when interception is active; otherwise, or when no
registration matches, it reaches the network stack. -/
def handleRequest (s : ServerState) (m : Method) (url : String) : Outcome :=
  if s.active then
    match findHandler s m url with
    | some h => Outcome.mocked h.response
    | none => Outcome.network
  else Outcome.network

/-- Modelled from the spec: the simulated delay is a non-blocking timer, so
a response with delay d issued at time t resolves at time t + d. -/
def resolveTime (issuedAt : Nat) (resp : MockResponse) : Nat :=
  issuedAt + resp.delayMs

/-- Modelled from the spec: mockNNNError(pathPattern) installs a handler
returning the given status with empty body for matching requests. -/
def mockError (status : Nat) (pathPattern : String) (s : ServerState) : ServerState :=
  use { method := Method.get, pattern := pathPattern,
        response := { status := status, body := none, delayMs := 0 } } s

/-- Modelled from the spec: mockDelayedResponse(pathPattern, delayMs,
payload) installs a handler that waits delayMs before resolving with the
payload (a successful status). -/
def mockDelayedResponse (pathPattern : String) (delayMs : Nat) (payload : String)
    (s : ServerState) : ServerState :=
  use { method := Method.get, pattern := pathPattern,
        response := { status := 200, body := some payload, delayMs := delayMs } } s

/-- Fixture payload for the products endpoint (opaque sample data). -/
def productsFixture : String := "products-fixture"

/-- Fixture payload for the orders endpoint (opaque sample data). -/
def ordersFixture : String := "orders-fixture"

/-- Fixture payload for the customers endpoint (opaque sample data). -/
def customersFixture : String := "customers-fixture"

/-- Modelled from the spec: the known endpoints and the fixture each one
serves (REST-style paths over the static fixture records). -/
def knownEndpoints : List (String × String) :=
  [("/products", productsFixture), ("/orders", ordersFixture),
   ("/customers", customersFixture)]

/-- Modelled from the spec: the base handler of one endpoint closes over its
fixture data and returns it with a successful status. -/
def fixtureHandler (p : String × String) : Handler :=
  { method := Method.get, pattern := p.1,
    response := { status := 200, body := some p.2, delayMs := 0 } }

/-- Modelled from the spec: the base handler set, one handler per known
endpoint. -/
def baseRegistry : List Handler := knownEndpoints.map fixtureHandler

/-- The fixture served for a given URL, when the URL is a known endpoint. -/
def lookupFixture (url : String) : Option String :=
  (knownEndpoints.find? (fun p => decide (p.1 = url))).map (fun p => p.2)

/-- A status code is successful when it lies in the 2xx range. -/
def isSuccess (status : Nat) : Bool :=
  decide (200 ≤ status) && decide (status < 300)

/-- The interception server as the module holding the base handlers sets it
up: interception not yet active, base handlers registered, no override. -/
def initialServer : ServerState :=
  { active := false, baseHandlers := baseRegistry, overrides := [] }

/-- Actions a test case performs on the mock layer: the override utilities
and a direct registration through the interception server. Issuing a
request does not mutate the server state, so it does not appear here. -/
inductive TestAction where
  | installError (status : Nat) (pathPattern : String)
  | installDelayed (pathPattern : String) (delayMs : Nat) (payload : String)
  | install (h : Handler)

/-- The handler registration an action installs. -/
def actionHandler : TestAction → Handler
  | TestAction.installError status p =>
      { method := Method.get, pattern := p,
        response := { status := status, body := none, delayMs := 0 } }
  | TestAction.installDelayed p d payload =>
      { method := Method.get, pattern := p,
        response := { status := 200, body := some payload, delayMs := d } }
  | TestAction.install h => h

/-- Effect of one test action on the server state. -/
def applyAction (s : ServerState) (a : TestAction) : ServerState :=
  match a with
  | TestAction.installError status p => mockError status p s
  | TestAction.installDelayed p d payload => mockDelayedResponse p d payload s
  | TestAction.install h => use h s

/-- Running the body of one test case: its actions in order. -/
def runTest (t : List TestAction) (s : ServerState) : ServerState :=
  t.foldl applyAction s

/-- From src/src/tests/setup.ts: beforeAll runs mswServer.listen(). -/
def beforeAllHook (s : ServerState) : ServerState := listen s

/-- From src/src/tests/setup.ts: afterEach runs mswServer.resetHandlers(). -/
def afterEachHook (s : ServerState) : ServerState := resetHandlers s

/-- From src/src/tests/setup.ts: afterAll runs mswServer.close(). -/
def afterAllHook (s : ServerState) : ServerState := close s

/-- One test case under the vitest lifecycle: the test body, then the
afterEach hook. -/
def runCase (s : ServerState) (t : List TestAction) : ServerState :=
  afterEachHook (runTest t s)

/-- Server state at the instant test case i of the suite begins: the
beforeAll hook, then the first i test cases each followed by its afterEach
hook. -/
def stateBeforeTest (tests : List (List TestAction)) (i : Nat)
    (s0 : ServerState) : ServerState :=
  (tests.take i).foldl runCase (beforeAllHook s0)

/-- The whole suite under the vitest lifecycle of setup.ts: beforeAll, the
test cases each followed by afterEach, then afterAll. -/
def runSuite (tests : List (List TestAction)) (s0 : ServerState) : ServerState :=
  afterAllHook (tests.foldl runCase (beforeAllHook s0))

/-- Modelled from the spec: in the development runtime the boolean
environment flag gates interception — the worker is started only when the
flag is set. -/
def devRuntimeInit (flag : Bool) (s : ServerState) : ServerState :=
  if flag then listen s else s

/-- From src/src/tests/setup.ts and src/vite.config.ts: the test runtime
loads the environment into the test env, but the setup file invokes
listen() unconditionally — the flag is not consulted. -/
def testRuntimeInit (_flag : Bool) (s : ServerState) : ServerState :=
  beforeAllHook s

theorem applyAction_eq_use (s : ServerState) (a : TestAction) :
    applyAction s a = use (actionHandler a) s := by
  cases a <;> rfl

theorem runTest_cons (a : TestAction) (t : List TestAction) (s : ServerState) :
    runTest (a :: t) s = runTest t (applyAction s a) := rfl

theorem runTest_active (t : List TestAction) (s : ServerState) :
    (runTest t s).active = s.active := by
  induction t generalizing s with
  | nil => rfl
  | cons a t ih =>
      rw [runTest_cons, ih, applyAction_eq_use]
      rfl

theorem runTest_base (t : List TestAction) (s : ServerState) :
    (runTest t s).baseHandlers = s.baseHandlers := by
  induction t generalizing s with
  | nil => rfl
  | cons a t ih =>
      rw [runTest_cons, ih, applyAction_eq_use]
      rfl

theorem find?_cons_eq {α : Type _} (p : α → Bool) (a : α) (l : List α) :
    (a :: l).find? p = if p a then some a else l.find? p := by
  cases hpa : p a with
  | true => simp [List.find?, hpa]
  | false => simp [List.find?, hpa]

theorem findHandler_use (h : Handler) (s : ServerState) (m : Method) (url : String) :
    findHandler (use h s) m url =
      if matchesH h m url then some h else findHandler s m url := by
  show ((h :: s.overrides) ++ s.baseHandlers).find? (fun hh => matchesH hh m url) =
    if matchesH h m url then some h else findHandler s m url
  rw [List.cons_append, find?_cons_eq]
  rfl

theorem findHandler_runTest_frame (t : List TestAction) (s : ServerState)
    (m : Method) (url : String)
    (hf : ∀ a ∈ t, matchesH (actionHandler a) m url = false) :
    findHandler (runTest t s) m url = findHandler s m url := by
  induction t generalizing s with
  | nil => rfl
  | cons a t ih =>
      rw [runTest_cons, ih (applyAction s a)
        (fun b hb => hf b (List.mem_cons_of_mem a hb))]
      rw [applyAction_eq_use, findHandler_use,
        if_neg (by simp [hf a (List.mem_cons_self a t)])]

theorem find?_eq_head?_filter {α : Type _} (p : α → Bool) (l : List α) :
    l.find? p = (l.filter p).head? := by
  induction l with
  | nil => rfl
  | cons a l ih =>
      cases hpa : p a with
      | true =>
          rw [List.find?_cons_of_pos _ hpa, List.filter_cons_of_pos hpa]
          rfl
      | false =>
          rw [List.find?_cons_of_neg _ (by simp [hpa]),
            List.filter_cons_of_neg (by simp [hpa]), ih]

theorem runCase_overrides (s : ServerState) (t : List TestAction) :
    (runCase s t).overrides = [] := rfl

theorem runCase_active (s : ServerState) (t : List TestAction) :
    (runCase s t).active = s.active := by
  show (runTest t s).active = s.active
  exact runTest_active t s

theorem foldl_runCase_active (ts : List (List TestAction)) (s : ServerState) :
    (ts.foldl runCase s).active = s.active := by
  induction ts generalizing s with
  | nil => rfl
  | cons t ts ih =>
      rw [List.foldl_cons, ih, runCase_active]

theorem foldl_runCase_overrides (ts : List (List TestAction)) (s : ServerState)
    (h : s.overrides = []) : (ts.foldl runCase s).overrides = [] := by
  induction ts generalizing s with
  | nil => exact h
  | cons t ts ih =>
      rw [List.foldl_cons]
      exact ih _ (runCase_overrides s t)

theorem foldl_runCase_overrides_of_ne_nil (ts : List (List TestAction))
    (s : ServerState) (h : ts ≠ []) : (ts.foldl runCase s).overrides = [] := by
  cases ts with
  | nil => exact absurd rfl h
  | cons t ts =>
      rw [List.foldl_cons]
      exact foldl_runCase_overrides ts _ (runCase_overrides s t)

theorem stateBeforeTest_active (tests : List (List TestAction)) (i : Nat)
    (s0 : ServerState) : (stateBeforeTest tests i s0).active = true := by
  unfold stateBeforeTest
  rw [foldl_runCase_active]
  rfl

theorem find?_append_of_all_neg {α : Type _} (p : α → Bool) (l1 l2 : List α)
    (h : ∀ a ∈ l1, p a = false) : (l1 ++ l2).find? p = l2.find? p := by
  induction l1 with
  | nil => rfl
  | cons a l1 ih =>
      rw [List.cons_append, find?_cons_eq,
        if_neg (by simp [h a (List.mem_cons_self a l1)])]
      exact ih (fun b hb => h b (List.mem_cons_of_mem a hb))

theorem find?_map_fixtureHandler (ps : List (String × String)) (url : String) :
    (ps.map fixtureHandler).find? (fun h => matchesH h Method.get url) =
      (ps.find? (fun p => decide (p.1 = url))).map fixtureHandler := by
  induction ps with
  | nil => rfl
  | cons p ps ih =>
      rw [List.map_cons]
      simp only [find?_cons_eq]
      have hm : matchesH (fixtureHandler p) Method.get url = decide (p.1 = url) := by
        simp [matchesH, fixtureHandler]
      rw [hm]
      cases hpu : decide (p.1 = url) with
      | true => rfl
      | false => simpa using ih

/-- C1: any handler override installed during a test case is undone by the
afterEach reset hook before the next test case begins, with no manual
cleanup by the caller: at the instant any test case after the first one
starts, the override layer is empty, whatever the earlier test cases
installed. -/
theorem overrides_isolated_across_tests
    (tests : List (List TestAction)) (i : Nat) (s0 : ServerState)
    (h1 : 1 ≤ i) (h2 : i ≤ tests.length) :
    (stateBeforeTest tests i s0).overrides = [] := by
  unfold stateBeforeTest
  apply foldl_runCase_overrides_of_ne_nil
  apply List.ne_nil_of_length_pos
  rw [List.length_take]
  omega

/-- Witness for C1: a suite whose first test installs a 404 override; at the
start of the second slot the override layer is empty. -/
theorem overrides_isolated_across_tests_witness :
    (stateBeforeTest [[TestAction.installError 404 "/products/999"]] 1
      initialServer).overrides = [] :=
  overrides_isolated_across_tests [[TestAction.installError 404 "/products/999"]]
    1 initialServer (by decide) (by decide)

/-- C2: after every call to resetHandlers() the registry equals the base
handler set: the override layer is empty, the base registrations are
present unchanged, every override the test body added since the last reset
is discarded, and resolution consults exactly the base handlers. -/
theorem resetHandlers_restores_base (s : ServerState) (t : List TestAction)
    (m : Method) (url : String) :
    (resetHandlers s).overrides = [] ∧
    (resetHandlers s).baseHandlers = s.baseHandlers ∧
    resetHandlers (runTest t s) = resetHandlers s ∧
    findHandler (resetHandlers s) m url =
      s.baseHandlers.find? (fun h => matchesH h m url) := by
  refine ⟨rfl, rfl, ?_, rfl⟩
  simp only [resetHandlers, runTest_active, runTest_base]

/-- C3: the registry resolves a request to at most one active response —
the head of its matching registrations — and when several registrations
for the same (method, pattern) pair are made within one scope, the last
registration is the active one. -/
theorem last_registration_wins (s s' : ServerState) (h1 h2 : Handler)
    (m m' : Method) (url url' : String)
    (hm : h2.method = h1.method) (hp : h2.pattern = h1.pattern)
    (hmatch : matchesH h2 m url = true) :
    findHandler (use h2 (use h1 s)) m url = some h2 ∧
    findHandler s' m' url' =
      ((s'.overrides ++ s'.baseHandlers).filter
        (fun h => matchesH h m' url')).head? := by
  constructor
  · rw [findHandler_use, if_pos hmatch]
  · exact find?_eq_head?_filter _ _

/-- Witness for C3: two overrides for (GET, "/products") installed in one
scope; the second one is the active registration. -/
theorem last_registration_wins_witness :
    findHandler
      (use { method := Method.get, pattern := "/products",
             response := { status := 500, body := none, delayMs := 0 } }
        (use { method := Method.get, pattern := "/products",
               response := { status := 404, body := none, delayMs := 0 } }
          initialServer))
      Method.get "/products" =
      some { method := Method.get, pattern := "/products",
             response := { status := 500, body := none, delayMs := 0 } } ∧
    findHandler initialServer Method.get "/orders" =
      ((initialServer.overrides ++ initialServer.baseHandlers).filter
        (fun h => matchesH h Method.get "/orders")).head? :=
  last_registration_wins initialServer initialServer
    { method := Method.get, pattern := "/products",
      response := { status := 404, body := none, delayMs := 0 } }
    { method := Method.get, pattern := "/products",
      response := { status := 500, body := none, delayMs := 0 } }
    Method.get Method.get "/products" "/orders" rfl rfl (by decide)

/-- C4: once mockNNNError(pathPattern) is installed, every request of the
current scope matching pathPattern that is issued later — after further
actions, none of which registers a handler matching that request — yields
exactly status NNN with an empty body. -/
theorem mockError_yields_configured_status
    (s : ServerState) (status : Nat) (pathPattern : String)
    (more : List TestAction)
    (hactive : s.active = true)
    (hframe : ∀ a ∈ more,
      matchesH (actionHandler a) Method.get pathPattern = false) :
    handleRequest (runTest more (mockError status pathPattern s))
      Method.get pathPattern =
      Outcome.mocked { status := status, body := none, delayMs := 0 } := by
  have ha : (runTest more (mockError status pathPattern s)).active = true := by
    rw [runTest_active]
    exact hactive
  have hfind : findHandler (runTest more (mockError status pathPattern s))
      Method.get pathPattern =
      some { method := Method.get, pattern := pathPattern,
             response := { status := status, body := none, delayMs := 0 } } := by
    rw [findHandler_runTest_frame more _ _ _ hframe]
    show findHandler (use _ s) _ _ = _
    rw [findHandler_use]
    simp [matchesH]
  simp [handleRequest, ha, hfind]

/-- Witness for C4: a 404 override for "/products/999" followed by an
unrelated delayed override; a matching request still yields 404 with empty
body. -/
theorem mockError_yields_configured_status_witness :
    handleRequest
      (runTest [TestAction.installDelayed "/orders" 5 "late"]
        (mockError 404 "/products/999" (listen initialServer)))
      Method.get "/products/999" =
      Outcome.mocked { status := 404, body := none, delayMs := 0 } :=
  mockError_yields_configured_status (listen initialServer) 404 "/products/999"
    [TestAction.installDelayed "/orders" 5 "late"] rfl (by decide)

/-- C5: once mockDelayedResponse(pathPattern, delayMs, payload) is
installed, a matching request issued later in the scope — after further
actions, none of which registers a handler matching it — is answered with
exactly the configured payload, and it resolves no earlier than delayMs
after the instant it is issued. -/
theorem mockDelayedResponse_resolves_late_with_payload
    (s : ServerState) (pathPattern payload : String)
    (delayMs issuedAt : Nat) (more : List TestAction)
    (hactive : s.active = true)
    (hframe : ∀ a ∈ more,
      matchesH (actionHandler a) Method.get pathPattern = false) :
    handleRequest (runTest more (mockDelayedResponse pathPattern delayMs payload s))
      Method.get pathPattern =
      Outcome.mocked { status := 200, body := some payload, delayMs := delayMs } ∧
    issuedAt + delayMs ≤ resolveTime issuedAt
      { status := 200, body := some payload, delayMs := delayMs } := by
  constructor
  · have ha : (runTest more (mockDelayedResponse pathPattern delayMs payload s)).active
        = true := by
      rw [runTest_active]
      exact hactive
    have hfind : findHandler
        (runTest more (mockDelayedResponse pathPattern delayMs payload s))
        Method.get pathPattern =
        some { method := Method.get, pattern := pathPattern,
               response := { status := 200, body := some payload,
                             delayMs := delayMs } } := by
      rw [findHandler_runTest_frame more _ _ _ hframe]
      show findHandler (use _ s) _ _ = _
      rw [findHandler_use]
      simp [matchesH]
    simp [handleRequest, ha, hfind]
  · exact Nat.le_refl _

/-- Witness for C5: a 2000 ms delayed override for "/products" with a
concrete payload; a matching request issued at time 100 is answered with
the payload and resolves no earlier than time 2100. -/
theorem mockDelayedResponse_resolves_late_witness :
    handleRequest
      (runTest [] (mockDelayedResponse "/products" 2000 "slow-products"
        (listen initialServer)))
      Method.get "/products" =
      Outcome.mocked { status := 200, body := some "slow-products",
                       delayMs := 2000 } ∧
    100 + 2000 ≤ resolveTime 100
      { status := 200, body := some "slow-products", delayMs := 2000 } :=
  mockDelayedResponse_resolves_late_with_payload (listen initialServer)
    "/products" "slow-products" 2000 100 [] rfl (by decide)

/-- C6: when interception is active and no installed override matches a
known endpoint — overrides for other endpoints may well be present — a
request to that endpoint is answered with the corresponding fixture data
unchanged and a successful (2xx) status — it never fails. -/
theorem known_endpoint_returns_fixture
    (s : ServerState) (url fix : String)
    (hactive : s.active = true)
    (hover : ∀ h ∈ s.overrides, matchesH h Method.get url = false)
    (hbase : s.baseHandlers = baseRegistry)
    (hfix : lookupFixture url = some fix) :
    handleRequest s Method.get url =
      Outcome.mocked { status := 200, body := some fix, delayMs := 0 } ∧
    isSuccess 200 = true := by
  obtain ⟨p, hp, hp2⟩ : ∃ p,
      knownEndpoints.find? (fun q => decide (q.1 = url)) = some p ∧ p.2 = fix := by
    unfold lookupFixture at hfix
    cases hfind : knownEndpoints.find? (fun q => decide (q.1 = url)) with
    | none =>
        rw [hfind] at hfix
        simp at hfix
    | some p =>
        rw [hfind] at hfix
        simp at hfix
        exact ⟨p, rfl, hfix⟩
  have hfindH : findHandler s Method.get url = some (fixtureHandler p) := by
    unfold findHandler
    rw [find?_append_of_all_neg _ _ _ hover, hbase]
    show (knownEndpoints.map fixtureHandler).find? _ = _
    rw [find?_map_fixtureHandler, hp]
    rfl
  constructor
  · simp [handleRequest, hactive, hfindH, fixtureHandler, hp2]
  · rfl

/-- Witness for C6: with interception active and a 404 override installed
for "/products/999", a GET to "/products" still returns the products
fixture with status 200. -/
theorem known_endpoint_returns_fixture_witness :
    handleRequest (mockError 404 "/products/999" (listen initialServer))
      Method.get "/products" =
      Outcome.mocked { status := 200, body := some productsFixture,
                       delayMs := 0 } ∧
    isSuccess 200 = true :=
  known_endpoint_returns_fixture
    (mockError 404 "/products/999" (listen initialServer)) "/products"
    productsFixture rfl (by decide) rfl (by decide)

/-- C7: at every instant of every test case — after the beforeAll listen,
i completed test cases and any prefix p of the running test body — the
interception is active, and a request matching a registered handler is
answered synthetically and never reaches the network stack. -/
theorem interception_blocks_network_during_tests
    (tests : List (List TestAction)) (i : Nat) (s0 : ServerState)
    (p : List TestAction) (m : Method) (url : String) (hd : Handler)
    (hfind : findHandler (runTest p (stateBeforeTest tests i s0)) m url
      = some hd) :
    (runTest p (stateBeforeTest tests i s0)).active = true ∧
    handleRequest (runTest p (stateBeforeTest tests i s0)) m url =
      Outcome.mocked hd.response ∧
    handleRequest (runTest p (stateBeforeTest tests i s0)) m url ≠
      Outcome.network := by
  have ha : (runTest p (stateBeforeTest tests i s0)).active = true := by
    rw [runTest_active, stateBeforeTest_active]
  refine ⟨ha, ?_, ?_⟩
  · simp [handleRequest, ha, hfind]
  · simp [handleRequest, ha, hfind]

/-- Witness for C7: at the start of the first test of the empty suite, a
GET to "/products" matches the base products handler, so it is mocked and
does not reach the network. -/
theorem interception_blocks_network_witness :
    (runTest [] (stateBeforeTest [] 0 initialServer)).active = true ∧
    handleRequest (runTest [] (stateBeforeTest [] 0 initialServer))
      Method.get "/products" =
      Outcome.mocked (fixtureHandler ("/products", productsFixture)).response ∧
    handleRequest (runTest [] (stateBeforeTest [] 0 initialServer))
      Method.get "/products" ≠ Outcome.network :=
  interception_blocks_network_during_tests [] 0 initialServer []
    Method.get "/products" (fixtureHandler ("/products", productsFixture))
    (by decide)

/-- C8: the override scope lifecycle under the setup.ts hooks: the scope a
test case sees is empty when the test begins, and the afterEach reset hook
empties it again when the test ends, so overrides are reverted
automatically at the end of each test case. -/
theorem override_scope_created_and_destroyed
    (tests : List (List TestAction)) (i : Nat) (hi : i < tests.length) :
    (stateBeforeTest tests i initialServer).overrides = [] ∧
    (runCase (stateBeforeTest tests i initialServer)
      (tests.get ⟨i, hi⟩)).overrides = [] := by
  constructor
  · unfold stateBeforeTest
    exact foldl_runCase_overrides _ _ rfl
  · rfl

/-- Witness for C8: a one-test suite whose test installs a 500 override;
the scope is empty at the start of that test and empty again after its
afterEach hook. -/
theorem override_scope_created_and_destroyed_witness :
    (stateBeforeTest [[TestAction.installError 500 "/orders"]] 0
      initialServer).overrides = [] ∧
    (runCase (stateBeforeTest [[TestAction.installError 500 "/orders"]] 0
      initialServer)
      ([[TestAction.installError 500 "/orders"]].get ⟨0, by decide⟩)).overrides
      = [] :=
  override_scope_created_and_destroyed [[TestAction.installError 500 "/orders"]]
    0 (by decide)

/-- C9: in the test runtime mock interception is always enabled — the setup
file invokes listen() unconditionally before any test runs, whatever the
value of the boolean environment flag, while in the development runtime
that same flag gates interception. -/
theorem test_runtime_always_mocks (flag : Bool) (s0 : ServerState) :
    (testRuntimeInit flag s0).active = true ∧
    testRuntimeInit flag s0 = testRuntimeInit true s0 ∧
    (devRuntimeInit flag initialServer).active = flag := by
  refine ⟨rfl, rfl, ?_⟩
  cases flag <;> rfl

/-- C10: the per-test reset changes only the handler registrations — it
preserves the activation flag and the base handlers; across the suite of
setup.ts interception is still active at the start of every test slot, and
it is deactivated only by the afterAll close once the suite ends. -/
theorem reset_frame_close_deactivates
    (s : ServerState) (tests : List (List TestAction)) (i : Nat) :
    (resetHandlers s).active = s.active ∧
    (resetHandlers s).baseHandlers = s.baseHandlers ∧
    (stateBeforeTest tests i initialServer).active = true ∧
    (runSuite tests initialServer).active = false := by
  exact ⟨rfl, rfl, stateBeforeTest_active tests i initialServer, rfl⟩

end BizOps
